import Mathlib

/-!
Verification of the Android-style process scheduler (android_module.cpp).

The C sources are shallowly embedded: scores computed with C `float`/`double`
arithmetic are modelled over `ℚ` (the score pipeline uses only +, *, /, and
comparisons on small values), `time_t`/`pid_t`/`int`/`long` are modelled as
`Int`, and the external probes (get_parent_pid, liveness of a pid, the
system-service test) are injected as function parameters.  External side
effects (writes to a cgroup membership file, writes to oom_score_adj, and
termination signals) are modelled as explicit event lists returned by the
embedded functions.
-/

namespace AndroidSched

/-- Process lifecycle states, from the ProcessState enum in android_scheduler.h. -/
inductive ProcessState where
  | FOREGROUND
  | VISIBLE
  | SERVICE
  | BACKGROUND
  | CACHED
deriving DecidableEq, Repr

/-- Monitoring configuration constants from android_scheduler.h. -/
def CPU_HISTORY_SIZE : Nat := 10

def MEM_HISTORY_SIZE : Nat := 10

def MAX_PROCESSES : Nat := 128

def CGROUP_FOREGROUND : String := "/sys/fs/cgroup/foreground"

def CGROUP_VISIBLE : String := "/sys/fs/cgroup/visible"

def CGROUP_SERVICE : String := "/sys/fs/cgroup/service"

def CGROUP_BACKGROUND : String := "/sys/fs/cgroup/background"

def CGROUP_CACHED : String := "/sys/fs/cgroup/cached"

/-- The TrackedProcess record from android_scheduler.h.  The two ring buffers of
ResourceHistory are modelled as the lists of their slots (cursor positions do
not matter for averaging over the full buffer); the identity strings (name,
cmdline) and the unused last_disk_activity field are omitted. -/
structure TrackedProcess where
  pid : Int
  last_active : Int
  state : ProcessState
  cpu_usage : List ℚ
  memory_usage : List Int
  last_network_activity : Int
  last_gpu_activity : Int
  importance_score : ℚ
  cgroup_path : String
  is_system_service : Bool
  is_playing_audio : Bool
  requested_priority : Int
  last_foreground_time : Int
  oom_score : Int
deriving DecidableEq, Repr

/-- External side effects issued by the scheduler: moving a pid into a cgroup
(assign_to_cgroup), writing a pid's oom_score_adj (set_oom_score), and sending
SIGTERM to a pid (kill in monitor_all_processes). -/
inductive ExtWrite where
  | cgroup (path : String) (pid : Int)
  | oom (pid : Int) (score : Int)
  | sigterm (pid : Int)
deriving DecidableEq, Repr

/-- calculate_average_cpu: sum of the CPU_HISTORY_SIZE ring-buffer slots divided
by CPU_HISTORY_SIZE. -/
def calculate_average_cpu (proc : TrackedProcess) : ℚ :=
  proc.cpu_usage.sum / (CPU_HISTORY_SIZE : ℚ)

/-- calculate_average_memory: sum of the MEM_HISTORY_SIZE ring-buffer slots
divided by MEM_HISTORY_SIZE (C long division). -/
def calculate_average_memory (proc : TrackedProcess) : Int :=
  proc.memory_usage.sum / (MEM_HISTORY_SIZE : Int)

/-- The raw additive score accumulated by calculate_importance_score before
normalization (lines 423-481 of android_module.cpp).  `parent_of` injects
get_parent_pid and `mp` is the global memory_pressure flag.  Note that when the
process is focused the code refreshes last_foreground_time to `now` before the
recent-foreground term is computed, so that term then contributes its full 25. -/
def importance_raw_score (proc : TrackedProcess) (focused_pid : Int) (now : Int)
    (mp : Bool) (parent_of : Int → Int) : ℚ :=
  let fg_time := if proc.pid = focused_pid then now else proc.last_foreground_time
  let s1 : ℚ := if proc.pid = focused_pid then 100 else 0
  let parent := parent_of proc.pid
  let s2 := s1 + (if parent > 0 ∧ parent = focused_pid then 90 else 0)
  let s3 := s2 + (if proc.is_system_service then 50 else 0)
  let s4 := s3 + (if proc.is_playing_audio then 80 else 0)
  let s5 := s4 + (if now - proc.last_gpu_activity < 5 then 40 else 0)
  let s6 := s5 + (if now - proc.last_network_activity < 10 then 20 else 0)
  let idle_time := now - proc.last_active
  let s7 := s6 + (if idle_time < 30 then 30 * (1 - (idle_time : ℚ) / 30) else 0)
  let fg_idle_time := now - fg_time
  let s8 := s7 + (if fg_idle_time < 60 then 25 * (1 - (fg_idle_time : ℚ) / 60) else 0)
  let s9 := s8 + calculate_average_cpu proc / 5
  s9 + (if mp ∧ calculate_average_memory proc > 500000 then -20 else 0)

/-- calculate_importance_score: normalizes the raw score (divide by 150, clamp
only from above at 1.0, map via normalized*40 - 20, negate) and returns the
importance together with the record, whose last_foreground_time has been
refreshed when the process is the focused one. -/
def calculate_importance_score (proc : TrackedProcess) (focused_pid : Int) (now : Int)
    (mp : Bool) (parent_of : Int → Int) : ℚ × TrackedProcess :=
  let proc1 := if proc.pid = focused_pid then { proc with last_foreground_time := now } else proc
  let score := importance_raw_score proc focused_pid now mp parent_of
  let normalized := score / 150
  let normalized := if normalized > 1 then 1 else normalized
  let android_importance := normalized * 40 - 20
  (-(android_importance), proc1)

/-- get_cgroup_for_state. -/
def get_cgroup_for_state (state : ProcessState) : String :=
  match state with
  | .FOREGROUND => CGROUP_FOREGROUND
  | .VISIBLE => CGROUP_VISIBLE
  | .SERVICE => CGROUP_SERVICE
  | .BACKGROUND => CGROUP_BACKGROUND
  | .CACHED => CGROUP_CACHED

/-- get_oom_score_for_state. -/
def get_oom_score_for_state (state : ProcessState) : Int :=
  match state with
  | .FOREGROUND => -900
  | .VISIBLE => -800
  | .SERVICE => -500
  | .BACKGROUND => 0
  | .CACHED => 500

/-- The threshold chain of update_process_state (lines 555-565): the state
selected for a given (already blended) importance score. -/
def state_for_score (s : ℚ) : ProcessState :=
  if s > 10 then .CACHED
  else if s > 0 then .BACKGROUND
  else if s > -10 then .SERVICE
  else if s > -15 then .VISIBLE
  else .FOREGROUND

/-- update_process_state: blends a nonzero requested_priority into the score,
selects the new state, and on an actual state change issues the cgroup
assignment and the oom write.  `cgroup_ok` models whether assign_to_cgroup
succeeds (on failure the cached cgroup_path field is left unchanged, but the
oom write still happens). -/
def update_process_state (proc : TrackedProcess) (importance_score : ℚ)
    (cgroup_ok : Bool) : TrackedProcess × List ExtWrite :=
  let old_state := proc.state
  let blended :=
    if proc.requested_priority ≠ 0 then
      (importance_score + (proc.requested_priority : ℚ) * 2) / 3
    else importance_score
  let new_state := state_for_score blended
  if old_state ≠ new_state then
    let target_cgroup := get_cgroup_for_state new_state
    let oom := get_oom_score_for_state new_state
    ({ proc with
        state := new_state,
        cgroup_path := if cgroup_ok then target_cgroup else proc.cgroup_path,
        oom_score := oom },
     [ExtWrite.cgroup target_cgroup proc.pid, ExtWrite.oom proc.pid oom])
  else
    ({ proc with state := new_state }, [])

/-- A tracked record with every signal inactive: no audio, no service, no GPU,
no network, zero CPU history, idle since time 0, no requested priority.  Used
as a concrete input for several theorems below. -/
def quiet_record : TrackedProcess :=
  { pid := 5, last_active := 0, state := .BACKGROUND,
    cpu_usage := List.replicate 10 0, memory_usage := List.replicate 10 0,
    last_network_activity := 0, last_gpu_activity := 0, importance_score := 0,
    cgroup_path := CGROUP_BACKGROUND, is_system_service := false,
    is_playing_audio := false, requested_priority := 0,
    last_foreground_time := 0, oom_score := 0 }

/-- One pass of the reap loop at the top of the main monitoring loop in
android_scheduler_main (lines 958-987): the array is scanned from index `i`; a
record whose process has exited or vanished (all three checks of the C code —
waitpid reporting the pid, waitpid failing with ECHILD, and /proc/pid being
absent — are collapsed into the injected liveness predicate returning false) is
removed by copying the last element into its slot and shrinking the array, and
the same index is then re-examined (`i--; continue`).  Returns the remaining
records together with the list of records examined, in visit order. -/
def reapAux (live : Int → Bool) (l : List TrackedProcess) (i : Nat) :
    List TrackedProcess × List TrackedProcess :=
  if h : i < l.length then
    if live (l[i]).pid then
      ((reapAux live l (i + 1)).1, l[i] :: (reapAux live l (i + 1)).2)
    else
      ((reapAux live ((l.set i (l.getLast
          (List.ne_nil_of_length_pos (Nat.lt_of_le_of_lt (Nat.zero_le i) h)))).dropLast) i).1,
       l[i] :: (reapAux live ((l.set i (l.getLast
          (List.ne_nil_of_length_pos (Nat.lt_of_le_of_lt (Nat.zero_le i) h)))).dropLast) i).2)
  else (l, [])
termination_by l.length - i
decreasing_by
  all_goals try simp only [List.length_dropLast, List.length_set]
  all_goals omega

/-- The reap pass as started by the main loop: the scan begins at index 0. -/
def reap_pass (live : Int → Bool) (l : List TrackedProcess) :
    List TrackedProcess × List TrackedProcess :=
  reapAux live l 0

/-- The memory-pressure eviction pass at the end of monitor_all_processes
(lines 700-713): when the global memory_pressure flag is set, every record in
CACHED state whose idle time (now - last_active) exceeds 300 seconds is sent
SIGTERM.  The record array itself is not modified; the code's own comment notes
the record is removed later by the main loop's reap scan. -/
def monitor_evict (mp : Bool) (now : Int) (procs : List TrackedProcess) :
    List TrackedProcess × List ExtWrite :=
  if mp then
    (procs, procs.filterMap fun p =>
      if p.state = ProcessState.CACHED ∧ now - p.last_active > 300 then
        some (ExtWrite.sigterm p.pid)
      else none)
  else (procs, [])

/-- The lookup-and-update part of change_process_priority (lines 499-521): find
the first tracked record with the given pid; if none exists return none,
otherwise store the requested priority in the record, force a state update with
the requested priority as the importance input, and return the new registry
with the emitted writes. -/
def apply_priority_first (rp : Int) (cgok : Bool) (pid : Int) :
    List TrackedProcess → Option (List TrackedProcess × List ExtWrite)
  | [] => none
  | p :: rest =>
    if p.pid = pid then
      some ((update_process_state { p with requested_priority := rp } (rp : ℚ) cgok).1 :: rest,
            (update_process_state { p with requested_priority := rp } (rp : ℚ) cgok).2)
    else
      match apply_priority_first rp cgok pid rest with
      | none => none
      | some (rest', ws) => some (p :: rest', ws)

/-- change_process_priority: reject a priority outside [-20, 20], reject an
unknown pid, and otherwise apply the override (returning 0 for success and -1
for rejection, as the C function does). -/
def change_process_priority (procs : List TrackedProcess) (pid : Int)
    (requested_priority : Int) (cgok : Bool) : Int × List TrackedProcess × List ExtWrite :=
  if requested_priority < -20 ∨ requested_priority > 20 then (-1, procs, [])
  else
    match apply_priority_first requested_priority cgok pid procs with
    | none => (-1, procs, [])
    | some (procs', ws) => (0, procs', ws)

/-- The signals handled by handle_signal. -/
inductive Signal where
  | SIGUSR1
  | SIGTERM
  | SIGINT
deriving DecidableEq, Repr

/-- The scheduler state touched by the signal handler: the process registry and
the should_exit flag read by the main loop. -/
structure SchedState where
  processes : List TrackedProcess
  should_exit : Bool
deriving Repr

/-- handle_signal (lines 889-908): SIGUSR1 only logs debug output; SIGTERM and
SIGINT reassign every tracked process to the root cgroup and reset its OOM
score to 0 — inside the handler itself — and then set should_exit.  The
registry records are not mutated and none are removed. -/
def handle_signal (sig : Signal) (st : SchedState) : SchedState × List ExtWrite :=
  match sig with
  | .SIGUSR1 => (st, [])
  | .SIGTERM =>
      ({ processes := st.processes, should_exit := true },
       st.processes.flatMap fun p =>
         [ExtWrite.cgroup "/sys/fs/cgroup" p.pid, ExtWrite.oom p.pid 0])
  | .SIGINT =>
      ({ processes := st.processes, should_exit := true },
       st.processes.flatMap fun p =>
         [ExtWrite.cgroup "/sys/fs/cgroup" p.pid, ExtWrite.oom p.pid 0])

/-- The record built by initialize_process (lines 716-770): memset to zero,
then pid, both activity timestamps set to the current time, requested_priority
cleared, state and cgroup path chosen from the group string, the
system-service flag probed, and the initial OOM score taken from the state
table. -/
def init_tracked_process (pid : Int) (group : String) (svc : Int → Bool) (now : Int) :
    TrackedProcess :=
  { pid := pid, last_active := now,
    state := if group = "foreground" then ProcessState.FOREGROUND else ProcessState.BACKGROUND,
    cpu_usage := List.replicate CPU_HISTORY_SIZE 0,
    memory_usage := List.replicate MEM_HISTORY_SIZE 0,
    last_network_activity := 0, last_gpu_activity := 0, importance_score := 0,
    cgroup_path := if group = "foreground" then CGROUP_FOREGROUND else CGROUP_BACKGROUND,
    is_system_service := svc pid, is_playing_audio := false,
    requested_priority := 0, last_foreground_time := now,
    oom_score := get_oom_score_for_state
      (if group = "foreground" then ProcessState.FOREGROUND else ProcessState.BACKGROUND) }

/-- The scan of attach_to_existing_processes (lines 816-845) over the numeric
/proc entries, injected here as a list of parsed values (`atoi` yields 0 or a
negative value for non-process entries, skipped by the `pid <= 0` check).  The
loop stops once the registry is full, skips pid 1 and the manager's own pid,
skips pids whose /proc directory is gone, and otherwise appends a record
initialized in the background group. -/
def attach_aux (self : Int) (alive : Int → Bool) (svc : Int → Bool) (now : Int) :
    List Int → List TrackedProcess → List TrackedProcess
  | [], acc => acc
  | e :: es, acc =>
    if acc.length < MAX_PROCESSES then
      if e ≤ 0 then attach_aux self alive svc now es acc
      else if e = 1 ∨ e = self then attach_aux self alive svc now es acc
      else if alive e then
        attach_aux self alive svc now es (acc ++ [init_tracked_process e "background" svc now])
      else attach_aux self alive svc now es acc
    else acc

/-- attach_to_existing_processes applied to the enumerated /proc entries and
the current registry (empty at the call site in android_scheduler_main). -/
def attach_to_existing_processes (entries : List Int) (self : Int) (alive : Int → Bool)
    (svc : Int → Bool) (now : Int) (procs : List TrackedProcess) : List TrackedProcess :=
  attach_aux self alive svc now entries procs

/-! ## Helper lemmas -/

/-- The prefix already scanned is untouched by a swap-removal at index i. -/
lemma swap_remove_take {α : Type} (l : List α) (hne : l ≠ []) (i : Nat) (h : i < l.length) :
    ((l.set i (l.getLast hne)).dropLast).take i = l.take i := by
  obtain ⟨m, a, rfl⟩ : ∃ m a, l = m ++ [a] := by
    rcases List.eq_nil_or_concat l with h0 | ⟨L, b, h0⟩
    · exact absurd h0 hne
    · exact ⟨L, b, by simpa [List.concat_eq_append] using h0⟩
  rw [List.getLast_concat]
  have hlen : (m ++ [a]).length = m.length + 1 := by simp
  rcases Nat.lt_or_ge i m.length with hi | hi
  · rw [List.set_append_left _ _ hi, List.dropLast_concat, List.set_take,
      List.take_append_of_le_length (Nat.le_of_lt hi),
      List.set_eq_of_length_le (by simp only [List.length_take]; omega)]
  · have hieq : i = m.length := by rw [hlen] at h; omega
    subst hieq
    rw [List.set_append_right _ _ hi]
    simp only [Nat.sub_self, List.set_cons_zero]
    rw [List.dropLast_concat, List.take_of_length_le (Nat.le_refl _),
      List.take_append_of_le_length (Nat.le_refl _), List.take_of_length_le (Nat.le_refl _)]

/-- After a swap-removal at index i the not-yet-scanned suffix is a permutation
of the original suffix beyond i: the element at i is gone and the former last
element has moved to the front of the remaining suffix. -/
lemma swap_remove_drop_perm {α : Type} (l : List α) (hne : l ≠ []) (i : Nat) (h : i < l.length) :
    List.Perm (((l.set i (l.getLast hne)).dropLast).drop i) (l.drop (i + 1)) := by
  obtain ⟨m, a, rfl⟩ : ∃ m a, l = m ++ [a] := by
    rcases List.eq_nil_or_concat l with h0 | ⟨L, b, h0⟩
    · exact absurd h0 hne
    · exact ⟨L, b, by simpa [List.concat_eq_append] using h0⟩
  rw [List.getLast_concat]
  have hlen : (m ++ [a]).length = m.length + 1 := by simp
  rcases Nat.lt_or_ge i m.length with hi | hi
  · rw [List.set_append_left _ _ hi, List.dropLast_concat]
    have h1 : i < (m.set i a).length := by simp only [List.length_set]; omega
    rw [List.drop_eq_getElem_cons h1, List.getElem_set_self,
      List.drop_set_of_lt _ _ (Nat.lt_succ_self i),
      List.drop_append_of_le_length (by omega)]
    exact (List.perm_append_singleton _ _).symm
  · have hieq : i = m.length := by rw [hlen] at h; omega
    subst hieq
    rw [List.set_append_right _ _ hi]
    simp only [Nat.sub_self, List.set_cons_zero]
    rw [List.dropLast_concat, List.drop_eq_nil_of_le (Nat.le_refl _),
      List.drop_eq_nil_of_le (by simp)]

/-- Invariant of the reap scan from index i: the surviving records are (up to
permutation) the already-scanned prefix plus the live part of the rest, and
every record of the rest is visited exactly once. -/
lemma reapAux_spec (live : Int → Bool) :
    ∀ (n : Nat) (l : List TrackedProcess) (i : Nat), l.length - i = n →
      List.Perm (reapAux live l i).1
        (l.take i ++ (l.drop i).filter (fun p => live p.pid)) ∧
      List.Perm (reapAux live l i).2 (l.drop i) := by
  intro n
  induction n with
  | zero =>
    intro l i hn
    have hge : l.length ≤ i := by omega
    rw [reapAux, dif_neg (by omega)]
    constructor
    · rw [List.take_of_length_le hge, List.drop_eq_nil_of_le hge]
      simp
    · rw [List.drop_eq_nil_of_le hge]
  | succ n ih =>
    intro l i hn
    have h : i < l.length := by omega
    have hne : l ≠ [] :=
      List.ne_nil_of_length_pos (Nat.lt_of_le_of_lt (Nat.zero_le i) h)
    have hdrop : l.drop i = l[i] :: l.drop (i + 1) := List.drop_eq_getElem_cons h
    rw [reapAux, dif_pos h]
    by_cases hl : live (l[i]).pid
    · rw [if_pos hl]
      obtain ⟨ih1, ih2⟩ := ih l (i + 1) (by omega)
      constructor
      · refine ih1.trans ?_
        have hfil : (l.drop i).filter (fun p => live p.pid) =
            l[i] :: (l.drop (i + 1)).filter (fun p => live p.pid) := by
          rw [hdrop]
          exact List.filter_cons_of_pos hl
        rw [hfil, ← List.take_concat_get l i h, List.concat_eq_append,
          List.append_assoc, List.singleton_append]
      · rw [hdrop]
        exact List.Perm.cons _ ih2
    · rw [if_neg hl]
      obtain ⟨ih1, ih2⟩ := ih ((l.set i (l.getLast hne)).dropLast) i (by
        simp only [List.length_dropLast, List.length_set]; omega)
      have htake := swap_remove_take l hne i h
      have hdropP := swap_remove_drop_perm l hne i h
      have hfil : (l.drop i).filter (fun p => live p.pid) =
          (l.drop (i + 1)).filter (fun p => live p.pid) := by
        rw [hdrop]
        exact List.filter_cons_of_neg hl
      constructor
      · refine ih1.trans ?_
        rw [htake, hfil]
        exact List.Perm.append_left _ (hdropP.filter _)
      · rw [hdrop]
        exact List.Perm.cons _ (ih2.trans hdropP)

/-- Splitting the length of a list by a Boolean predicate. -/
lemma filter_length_split {α : Type} (p : α → Bool) (l : List α) :
    (l.filter p).length + (l.filter fun a => !(p a)).length = l.length := by
  induction l with
  | nil => simp
  | cons a t iht =>
    by_cases hp : p a <;> simp [List.filter_cons, hp] <;> omega

/-- The pid lookup of change_process_priority fails when no record matches. -/
lemma apply_priority_first_eq_none (rp : Int) (cgok : Bool) (pid : Int) :
    ∀ procs : List TrackedProcess, (∀ p ∈ procs, p.pid ≠ pid) →
      apply_priority_first rp cgok pid procs = none := by
  intro procs
  induction procs with
  | nil => intro _; rfl
  | cons p rest ihr =>
    intro h
    have hp : ¬ p.pid = pid := h p (List.mem_cons_self p rest)
    simp only [apply_priority_first, if_neg hp,
      ihr fun q hq => h q (List.mem_cons_of_mem p hq)]

/-- Projections of the record returned by update_process_state: pid and
requested_priority are preserved and the state is the one selected for the
blended score. -/
lemma update_state_fields (p : TrackedProcess) (v : ℚ) (ok : Bool) :
    (update_process_state p v ok).1.state =
      state_for_score (if p.requested_priority ≠ 0 then
        (v + (p.requested_priority : ℚ) * 2) / 3 else v) ∧
    (update_process_state p v ok).1.pid = p.pid ∧
    (update_process_state p v ok).1.requested_priority = p.requested_priority := by
  simp only [update_process_state]
  split <;> split <;> simp

/-- When a record with the requested pid is tracked, the lookup succeeds and the
registry it returns contains the updated first matching record. -/
lemma apply_priority_first_mem (rp : Int) (cgok : Bool) (pid : Int) :
    ∀ procs : List TrackedProcess, (∃ p ∈ procs, p.pid = pid) →
      ∃ procs' ws p, apply_priority_first rp cgok pid procs = some (procs', ws) ∧
        p ∈ procs ∧ p.pid = pid ∧
        (update_process_state { p with requested_priority := rp } (rp : ℚ) cgok).1 ∈ procs' := by
  intro procs
  induction procs with
  | nil => rintro ⟨p, hp, _⟩; exact absurd hp (List.not_mem_nil p)
  | cons p rest ihr =>
    rintro ⟨x, hx, hxpid⟩
    by_cases hp : p.pid = pid
    · refine ⟨(update_process_state { p with requested_priority := rp } (rp : ℚ) cgok).1 :: rest,
        (update_process_state { p with requested_priority := rp } (rp : ℚ) cgok).2, p,
        ?_, List.mem_cons_self p rest, hp, List.mem_cons_self _ _⟩
      simp only [apply_priority_first, if_pos hp]
    · have hxr : x ∈ rest := by
        rcases List.mem_cons.mp hx with rfl | hr
        · exact absurd hxpid hp
        · exact hr
      obtain ⟨procs', ws, q, heq, hq, hqpid, hqmem⟩ := ihr ⟨x, hxr, hxpid⟩
      refine ⟨p :: procs', ws, q, ?_, List.mem_cons_of_mem p hq, hqpid,
        List.mem_cons_of_mem p hqmem⟩
      simp only [apply_priority_first, if_neg hp, heq]

/-- The shutdown cleanup emits two writes per tracked process. -/
lemma cleanup_writes_length (ps : List TrackedProcess) :
    (ps.flatMap fun p =>
      [ExtWrite.cgroup "/sys/fs/cgroup" p.pid, ExtWrite.oom p.pid 0]).length =
      2 * ps.length := by
  induction ps with
  | nil => rfl
  | cons p t iht =>
    simp only [List.flatMap_cons, List.length_append, iht, List.length_cons, List.length_nil]
    omega

/-- Closed form of the attach scan while the capacity bound is not reached:
the surviving entries are exactly those with a positive pid other than 1 and
the manager's own pid whose process is alive. -/
lemma attach_aux_spec (self : Int) (alive svc : Int → Bool) (now : Int) :
    ∀ (entries : List Int) (acc : List TrackedProcess),
      acc.length + entries.length ≤ MAX_PROCESSES →
      attach_aux self alive svc now entries acc =
        acc ++ (entries.filter fun e =>
            decide (0 < e) && decide (e ≠ 1) && decide (e ≠ self) && alive e).map
          (fun e => init_tracked_process e "background" svc now) := by
  intro entries
  induction entries with
  | nil => intro acc h; simp [attach_aux]
  | cons e es ihe =>
    intro acc h
    have hlt : acc.length < MAX_PROCESSES := by
      simp only [List.length_cons] at h; omega
    by_cases h0 : e ≤ 0
    · have hc : (decide (0 < e) && decide (e ≠ 1) && decide (e ≠ self) && alive e) = false := by
        have h0' : ¬ (0 < e) := by omega
        simp [h0']
      simp only [attach_aux, if_pos hlt, if_pos h0, List.filter_cons, hc]
      exact ihe acc (by simp only [List.length_cons] at h; omega)
    · by_cases h1 : e = 1 ∨ e = self
      · have hc : (decide (0 < e) && decide (e ≠ 1) && decide (e ≠ self) && alive e) = false := by
          rcases h1 with rfl | rfl <;> simp
        simp only [attach_aux, if_pos hlt, if_neg h0, if_pos h1, List.filter_cons, hc]
        exact ihe acc (by simp only [List.length_cons] at h; omega)
      · by_cases ha : alive e
        · have hc : (decide (0 < e) && decide (e ≠ 1) && decide (e ≠ self) && alive e) = true := by
            push_neg at h0 h1
            simp [h0, h1.1, h1.2, ha]
          simp only [attach_aux, if_pos hlt, if_neg h0, if_neg h1, if_pos ha,
            List.filter_cons, hc]
          rw [ihe (acc ++ [init_tracked_process e "background" svc now]) (by
            simp only [List.length_append, List.length_cons, List.length_nil] at h ⊢; omega)]
          simp
        · have hc : (decide (0 < e) && decide (e ≠ 1) && decide (e ≠ self) && alive e) = false := by
            simp [ha]
          simp only [attach_aux, if_pos hlt, if_neg h0, if_neg h1, if_neg ha,
            List.filter_cons, hc]
          exact ihe acc (by simp only [List.length_cons] at h; omega)

/-! ## Claim theorems -/

/-- C1: the claim says that for every combination of raw signal inputs the
normalized importance (and, for a nonzero requested priority, the blended
value) lies in [-20, 20].  The code clamps the normalized raw score only from
above (at 1.0), never from below, so a negative raw score escapes the range:
with memory pressure set, an average memory above 500000 KB, and every other
signal inactive, the raw score is -20 and the returned importance is 76/3
(about 25.33), greater than 20.  This contradicts the claim and the code's own
comments that the value is mapped into the -20..20 range. -/
theorem C1_importance_escapes_range :
    (calculate_importance_score
        { quiet_record with memory_usage := List.replicate 10 600000 }
        7 1000 true (fun _ => 0)).1 = 76 / 3 ∧
    ¬ ((calculate_importance_score
        { quiet_record with memory_usage := List.replicate 10 600000 }
        7 1000 true (fun _ => 0)).1 ≤ 20) := by
  constructor <;>
    norm_num [calculate_importance_score, importance_raw_score, calculate_average_cpu,
      calculate_average_memory, quiet_record, CPU_HISTORY_SIZE, MEM_HISTORY_SIZE]

/-- C2: for every blended importance value v the state machine follows the
threshold table exactly — v > 10 gives CACHED (OOM +500), 0 < v ≤ 10 gives
BACKGROUND (OOM 0), -10 < v ≤ 0 gives SERVICE (OOM -500), -15 < v ≤ -10 gives
VISIBLE (OOM -800), v ≤ -15 gives FOREGROUND (OOM -900) — and on an actual
state change update_process_state writes exactly the cgroup assignment and the
OOM score of the new state. -/
theorem C2_state_threshold_table (v : ℚ) (proc : TrackedProcess) (ok : Bool)
    (hrp : proc.requested_priority = 0) :
    (v > 10 → state_for_score v = .CACHED ∧
      get_oom_score_for_state (state_for_score v) = 500) ∧
    (0 < v ∧ v ≤ 10 → state_for_score v = .BACKGROUND ∧
      get_oom_score_for_state (state_for_score v) = 0) ∧
    (-10 < v ∧ v ≤ 0 → state_for_score v = .SERVICE ∧
      get_oom_score_for_state (state_for_score v) = -500) ∧
    (-15 < v ∧ v ≤ -10 → state_for_score v = .VISIBLE ∧
      get_oom_score_for_state (state_for_score v) = -800) ∧
    (v ≤ -15 → state_for_score v = .FOREGROUND ∧
      get_oom_score_for_state (state_for_score v) = -900) ∧
    (update_process_state proc v ok).1.state = state_for_score v ∧
    ((update_process_state proc v ok).1.state ≠ proc.state →
      (update_process_state proc v ok).2 =
        [ExtWrite.cgroup (get_cgroup_for_state (state_for_score v)) proc.pid,
         ExtWrite.oom proc.pid (get_oom_score_for_state (state_for_score v))]) := by
  have hstate : (update_process_state proc v ok).1.state = state_for_score v ∧
      ((update_process_state proc v ok).1.state ≠ proc.state →
        (update_process_state proc v ok).2 =
          [ExtWrite.cgroup (get_cgroup_for_state (state_for_score v)) proc.pid,
           ExtWrite.oom proc.pid (get_oom_score_for_state (state_for_score v))]) := by
    simp only [update_process_state, hrp, ne_eq, not_true_eq_false, if_false]
    split
    · simp_all
    · simp_all
  refine ⟨?_, ?_, ?_, ?_, ?_, hstate.1, hstate.2⟩ <;>
    intro h <;>
    (try obtain ⟨h1, h2⟩ := h) <;>
    unfold state_for_score <;>
    split_ifs <;>
    first
      | exact ⟨rfl, rfl⟩
      | (exfalso; linarith)

/-- C2 witness: at v = 15 the selected state is CACHED with OOM score +500. -/
theorem C2_state_threshold_table_witness :
    state_for_score 15 = ProcessState.CACHED ∧
    get_oom_score_for_state (state_for_score 15) = 500 :=
  (C2_state_threshold_table 15 quiet_record true rfl).1 (by norm_num)

/-- C3 counterexample: the claim says the +90 bonus applies in both directions
of the parent/child relation with the focused process.  Here quiet_record
(pid 5) is the parent of the focused process 7 (the injected get_parent_pid
maps 7 to 5), yet its raw score equals the raw score computed with a parent map
showing no relationship at all — the code checks only whether the record's own
parent is the focused pid, so the parent direction earns no bonus. -/
theorem C3_parent_direction_no_bonus :
    quiet_record.pid = 5 ∧
    (fun p : Int => if p = 7 then (5 : Int) else 3) 7 = quiet_record.pid ∧
    importance_raw_score quiet_record 7 1000 false (fun p => if p = 7 then 5 else 3) =
      importance_raw_score quiet_record 7 1000 false (fun _ => 3) := by
  refine ⟨rfl, rfl, ?_⟩
  norm_num [importance_raw_score, calculate_average_cpu, calculate_average_memory,
    quiet_record, CPU_HISTORY_SIZE, MEM_HISTORY_SIZE]

/-- C3 amended: the +90 bonus is added exactly when get_parent_pid of the
record's own pid is positive and equals the focused pid, i.e. only when the
record is a child of the focused process; being the parent of the focused
process earns nothing.  Stated as: changing the parent map from one that
satisfies the child condition to one that does not lowers the raw score by
exactly 90. -/
theorem C3_child_bonus_amended (proc : TrackedProcess) (focused_pid now : Int) (mp : Bool)
    (po po' : Int → Int)
    (h1 : po proc.pid > 0 ∧ po proc.pid = focused_pid)
    (h2 : ¬ (po' proc.pid > 0 ∧ po' proc.pid = focused_pid)) :
    importance_raw_score proc focused_pid now mp po =
      importance_raw_score proc focused_pid now mp po' + 90 := by
  simp only [importance_raw_score]
  rw [if_pos h1, if_neg h2]
  ring

/-- C3 witness: for quiet_record with focused pid 7, a parent map sending every
pid to 7 earns the bonus, a parent map sending every pid to 0 does not. -/
theorem C3_child_bonus_amended_witness :
    importance_raw_score quiet_record 7 1000 false (fun _ => 7) =
      importance_raw_score quiet_record 7 1000 false (fun _ => 0) + 90 :=
  C3_child_bonus_amended quiet_record 7 1000 false (fun _ => 7) (fun _ => 0)
    (by constructor <;> norm_num [quiet_record]) (by norm_num [quiet_record])

/-- C4: state enforcement is idempotent — if the state computed from the
blended importance equals the record's current state no external write is
emitted, a second application with the same inputs emits no write, writes are
emitted exactly when the state actually changes, and a change emits exactly one
cgroup write and one OOM write. -/
theorem C4_enforcement_idempotent (proc : TrackedProcess) (v : ℚ) (ok ok2 : Bool) :
    ((update_process_state proc v ok).1.state = proc.state →
      (update_process_state proc v ok).2 = []) ∧
    (update_process_state (update_process_state proc v ok).1 v ok2).2 = [] ∧
    ((update_process_state proc v ok).2 = [] ↔
      (update_process_state proc v ok).1.state = proc.state) ∧
    ((update_process_state proc v ok).1.state ≠ proc.state →
      (update_process_state proc v ok).2 =
        [ExtWrite.cgroup (get_cgroup_for_state ((update_process_state proc v ok).1.state))
          proc.pid,
         ExtWrite.oom proc.pid
          (get_oom_score_for_state ((update_process_state proc v ok).1.state))]) := by
  simp only [update_process_state]
  split_ifs <;> simp_all <;> exact fun hh => absurd hh.symm (by assumption)

/-- C4 witness: applying enforcement twice to quiet_record at score 15 emits no
write the second time. -/
theorem C4_enforcement_idempotent_witness :
    (update_process_state (update_process_state quiet_record 15 true).1 15 true).2 = [] :=
  (C4_enforcement_idempotent quiet_record 15 true true).2.1

/-- C5: one pass of the reap loop keeps exactly the records whose process is
still resolvable — the survivors are a permutation of the live records (so
with N tracked and M dead exactly N - M remain), every live record survives,
every survivor is a live original record, and the scan visits every record of
the original registry exactly once despite the swap-removals. -/
theorem C5_reap_correctness (live : Int → Bool) (l : List TrackedProcess) :
    List.Perm (reap_pass live l).1 (l.filter fun p => live p.pid) ∧
    (reap_pass live l).1.length + (l.filter fun p => !(live p.pid)).length = l.length ∧
    (∀ p, p ∈ l → live p.pid = true → p ∈ (reap_pass live l).1) ∧
    (∀ p, p ∈ (reap_pass live l).1 → p ∈ l ∧ live p.pid = true) ∧
    List.Perm (reap_pass live l).2 l := by
  obtain ⟨h1, h2⟩ := reapAux_spec live l.length l 0 (by omega)
  rw [List.take_zero, List.drop_zero, List.nil_append] at h1
  rw [List.drop_zero] at h2
  unfold reap_pass
  refine ⟨h1, ?_, ?_, ?_, h2⟩
  · rw [h1.length_eq]
    exact filter_length_split _ l
  · intro p hp hl
    exact (h1.mem_iff).2 (List.mem_filter.2 ⟨hp, hl⟩)
  · intro p hp
    have hm := List.mem_filter.1 ((h1.mem_iff).1 hp)
    exact ⟨hm.1, hm.2⟩

/-- C5 witness: a live record survives the reap pass. -/
theorem C5_reap_correctness_witness :
    quiet_record ∈ (reap_pass (fun _ => true) [quiet_record]).1 :=
  (C5_reap_correctness (fun _ => true) [quiet_record]).2.2.1 quiet_record (by simp) rfl

/-- C6: the eviction pass terminates a tracked process exactly when the global
memory-pressure flag is set, the record is CACHED, and its idle time exceeds
300 seconds; the registry itself is untouched.  In particular a CACHED record
idle 301 seconds under pressure is signalled, one idle 299 seconds is not, and
a non-CACHED record is never signalled. -/
theorem C6_eviction_rule (mp : Bool) (now : Int) (procs : List TrackedProcess) :
    (monitor_evict mp now procs).1 = procs ∧
    (∀ q : Int, ExtWrite.sigterm q ∈ (monitor_evict mp now procs).2 ↔
      (mp = true ∧ ∃ p, p ∈ procs ∧ p.pid = q ∧ p.state = ProcessState.CACHED ∧
        now - p.last_active > 300)) ∧
    ExtWrite.sigterm 5 ∈
      (monitor_evict true 301 [{ quiet_record with state := ProcessState.CACHED }]).2 ∧
    ExtWrite.sigterm 5 ∉
      (monitor_evict true 299 [{ quiet_record with state := ProcessState.CACHED }]).2 ∧
    (monitor_evict true 400 [{ quiet_record with state := ProcessState.BACKGROUND }]).2 = [] := by
  refine ⟨?_, ?_, ?_, ?_, ?_⟩
  · cases mp <;> simp [monitor_evict]
  · intro q
    cases mp
    · simp [monitor_evict]
    · simp only [monitor_evict, if_true]
      simp [List.mem_filterMap, Option.ite_none_right_eq_some]
      constructor
      · rintro ⟨p, hp, ⟨hc1, hc2⟩, hpid⟩
        exact ⟨p, hp, hpid, hc1, hc2⟩
      · rintro ⟨p, hp, hpid, hc1, hc2⟩
        exact ⟨p, hp, ⟨hc1, hc2⟩, hpid⟩
  · decide
  · decide
  · decide

/-- C7: an override with a priority outside [-20, 20] or an unknown pid is
rejected with -1, and neither the registry nor the outside world is touched. -/
theorem C7_invalid_override_rejected (procs : List TrackedProcess) (pid rp : Int)
    (cgok : Bool) (h : rp < -20 ∨ rp > 20 ∨ ∀ p ∈ procs, p.pid ≠ pid) :
    change_process_priority procs pid rp cgok = (-1, procs, []) := by
  by_cases hr : rp < -20 ∨ rp > 20
  · simp only [change_process_priority, if_pos hr]
  · have hnf : ∀ p ∈ procs, p.pid ≠ pid := by
      rcases h with h1 | h2 | h3
      · exact absurd (Or.inl h1) hr
      · exact absurd (Or.inr h2) hr
      · exact h3
    simp only [change_process_priority, if_neg hr,
      apply_priority_first_eq_none rp cgok pid procs hnf]

/-- C7 witness: an out-of-range priority of 99 is rejected on an empty
registry without mutation. -/
theorem C7_invalid_override_rejected_witness :
    change_process_priority [] 1 99 true = (-1, [], []) :=
  C7_invalid_override_rejected [] 1 99 true (Or.inr (Or.inl (by norm_num)))

/-- C8 counterexample: the claim says a shutdown signal only sets the exit flag
and performs no cleanup from within the interrupt context.  But handle_signal
on SIGTERM with one tracked process emits external writes (the cgroup reset
and the OOM reset) inside the handler itself. -/
theorem C8_handler_cleanup_not_deferred :
    (handle_signal Signal.SIGTERM ⟨[quiet_record], false⟩).2 ≠ [] := by
  simp [handle_signal]

/-- C8 amended: on SIGTERM or SIGINT the handler performs the cleanup itself —
it emits, within the interrupt context, exactly one root-cgroup reassignment
and one OOM reset per tracked process (and nothing else) and then sets the
exit flag; the registry records are not mutated and none are removed, and the
main loop later merely observes the flag and exits without further cleanup. -/
theorem C8_shutdown_amended (sig : Signal) (st : SchedState)
    (hsig : sig = Signal.SIGTERM ∨ sig = Signal.SIGINT) :
    (handle_signal sig st).1.processes = st.processes ∧
    (handle_signal sig st).1.should_exit = true ∧
    (handle_signal sig st).2.length = 2 * st.processes.length ∧
    (∀ p ∈ st.processes,
      ExtWrite.cgroup "/sys/fs/cgroup" p.pid ∈ (handle_signal sig st).2 ∧
      ExtWrite.oom p.pid 0 ∈ (handle_signal sig st).2) ∧
    (∀ w ∈ (handle_signal sig st).2,
      ∃ p ∈ st.processes,
        w = ExtWrite.cgroup "/sys/fs/cgroup" p.pid ∨ w = ExtWrite.oom p.pid 0) := by
  rcases hsig with rfl | rfl <;>
    refine ⟨rfl, rfl, cleanup_writes_length st.processes, fun p hp =>
      ⟨List.mem_flatMap.mpr ⟨p, hp, by simp⟩, List.mem_flatMap.mpr ⟨p, hp, by simp⟩⟩,
      fun w hw => ?_⟩ <;>
    · obtain ⟨p, hp, hm⟩ := List.mem_flatMap.mp hw
      have hw2 : w = ExtWrite.cgroup "/sys/fs/cgroup" p.pid ∨ w = ExtWrite.oom p.pid 0 := by
        simpa using hm
      exact ⟨p, hp, hw2⟩

/-- C8 witness: SIGTERM on a one-record state sets the exit flag. -/
theorem C8_shutdown_amended_witness :
    (handle_signal Signal.SIGTERM ⟨[quiet_record], false⟩).1.should_exit = true :=
  (C8_shutdown_amended Signal.SIGTERM ⟨[quiet_record], false⟩ (Or.inl rfl)).2.1

/-- C9 counterexample: the claim says the attach scan does not exclude the
manager's own process.  With the enumeration containing exactly the manager's
own pid 42 (alive), the scan creates no record at all. -/
theorem C9_self_excluded :
    ((42 : Int) ∈ [(42 : Int)]) ∧
    attach_to_existing_processes [42] 42 (fun _ => true) (fun _ => false) 0 [] = [] := by
  constructor
  · simp
  · rfl

/-- C9 amended: starting from an empty registry and within the capacity bound,
the attach scan creates one record, with default state BACKGROUND and no
requested priority, for exactly the enumerated pids that are positive, not 1,
not the manager's own pid, and alive — pid 1 and the manager's own process are
excluded. -/
theorem C9_attach_amended (entries : List Int) (self : Int) (alive svc : Int → Bool)
    (now : Int) (hcap : entries.length ≤ MAX_PROCESSES) :
    ((attach_to_existing_processes entries self alive svc now []).map fun p => p.pid) =
      entries.filter (fun e =>
        decide (0 < e) && decide (e ≠ 1) && decide (e ≠ self) && alive e) ∧
    ∀ p ∈ attach_to_existing_processes entries self alive svc now [],
      p.state = ProcessState.BACKGROUND ∧ p.requested_priority = 0 := by
  have hs := attach_aux_spec self alive svc now entries [] (by simpa using hcap)
  rw [attach_to_existing_processes, hs]
  constructor
  · rw [List.nil_append, List.map_map]
    have hcomp : ((fun p : TrackedProcess => p.pid) ∘
        fun e => init_tracked_process e "background" svc now) = id := by
      funext e; rfl
    rw [hcomp, List.map_id]
  · intro p hp
    rw [List.nil_append] at hp
    obtain ⟨e, _, rfl⟩ := List.mem_map.mp hp
    constructor
    · simp [init_tracked_process]
    · rfl

/-- C9 witness: enumerating pids 2 and 3 with the manager itself being pid 3
attaches exactly pid 2. -/
theorem C9_attach_amended_witness :
    ((attach_to_existing_processes [2, 3] 3 (fun _ => true) (fun _ => false) 0 []).map
      fun p => p.pid) = [2] := by
  have h := (C9_attach_amended [2, 3] 3 (fun _ => true) (fun _ => false) 0
    (by norm_num [MAX_PROCESSES])).1
  rw [h]
  rfl

/-- C10: a successful override with a nonzero priority p in [-20, 20] on a
tracked pid returns success and immediately leaves the matching record in the
state the threshold table assigns to p itself, because the blend
(p + 2p)/3 collapses to p; the update happens inside the call, before the next
tick recomputes the score. -/
theorem C10_override_state_immediate (procs : List TrackedProcess) (pid rp : Int)
    (cgok : Bool) (h1 : -20 ≤ rp) (h2 : rp ≤ 20) (h3 : rp ≠ 0)
    (htracked : ∃ p ∈ procs, p.pid = pid) :
    (change_process_priority procs pid rp cgok).1 = 0 ∧
    ∃ p', p' ∈ (change_process_priority procs pid rp cgok).2.1 ∧ p'.pid = pid ∧
      p'.state = state_for_score (rp : ℚ) ∧ p'.requested_priority = rp := by
  have hr : ¬ (rp < -20 ∨ rp > 20) := by omega
  obtain ⟨procs', ws, p, heq, hp, hpid, hmem⟩ :=
    apply_priority_first_mem rp cgok pid procs htracked
  have hblend : (((rp : ℚ) + (rp : ℚ) * 2) / 3) = (rp : ℚ) := by ring
  obtain ⟨hst, hpd, hrq⟩ :=
    update_state_fields { p with requested_priority := rp } (rp : ℚ) cgok
  rw [if_pos (by simpa using h3)] at hst
  simp only at hst hpd hrq
  rw [hblend] at hst
  simp only [change_process_priority, if_neg hr, heq]
  refine ⟨by trivial, (update_process_state { p with requested_priority := rp } (rp : ℚ) cgok).1,
    hmem, by rw [hpd, hpid], hst, hrq⟩

/-- C10 witness: an override of -18 on the tracked pid 5 succeeds. -/
theorem C10_override_state_immediate_witness :
    (change_process_priority [quiet_record] 5 (-18) true).1 = 0 :=
  (C10_override_state_immediate [quiet_record] 5 (-18) true (by norm_num) (by norm_num)
    (by norm_num) ⟨quiet_record, List.mem_cons_self _ _, rfl⟩).1

end AndroidSched
